import Mathlib

/-!
Verification of the candidate-ranking and quota-truncation engine of the
prioritize package (blob replacement-candidate prioritization).

The repository ships the unit tests of the engine; the engine itself
(comparator, partition/truncation, public entry point) is modelled here from
the specification (sections 3, 4.1, 4.2, 4.3, 4.4), and the model is
validated below against the concrete expectations recorded in the unit tests
(cssLiteral, cssExpectedReplacementCandidates, TestCandidateSortStateLess,
TestDestructivelyPrioritizeReplacementCandidatesWithMax).

Digests are modelled as strings ordered lexicographically, timestamps as
natural numbers (0 is the zero time, "no recency metadata"), and location
references as plain strings.
-/

set_option maxRecDepth 16384

namespace Prioritize

/-- Modelled from the spec: the candidate record (spec section 3), one
observation of a blob: digest, location (concrete reference, or the
unknown-location sentinel expressed by the UnknownLocation flag), and a
compression label. This is the output element type; the lastSeen timestamp
lives in CandidateWithTime and is stripped from the output. -/
structure BICReplacementCandidate2 where
  Digest : String
  UnknownLocation : Bool
  Location : String
  CompressorName : String
  deriving DecidableEq

/-- Modelled from the spec: a candidate record together with its lastSeen
timestamp (spec section 3), the element type handed to the ranking engine. -/
structure CandidateWithTime where
  candidate : BICReplacementCandidate2
  lastSeen : Nat
  deriving DecidableEq

/-- Default record, used only for out-of-range index access in Less. -/
def defaultCandidate : CandidateWithTime :=
  { candidate := { Digest := "", UnknownLocation := false, Location := "", CompressorName := "" },
    lastSeen := 0 }

/-- Modelled from the spec: tier assignment of section 4.1, best (0) to worst
(2). Exact tier: digest equals the target (primary) digest. Decompressed
tier: digest equals the decompressed (uncompressed) digest, only reachable
when that digest is non-empty and differs from the target digest. Alternate
tier: everything else. -/
def tier (primaryDigest uncompressedDigest d : String) : Nat :=
  if d = primaryDigest then 0
  else if uncompressedDigest ≠ "" ∧ uncompressedDigest ≠ primaryDigest ∧ d = uncompressedDigest then 2
  else 1

/-- Lexicographic (byte/codepoint) order on digests, the deterministic
tie-break key of spec section 4.1, expressed on the underlying character
lists. -/
def digestLt (d₁ d₂ : String) : Prop :=
  d₁.data < d₂.data

instance (d₁ d₂ : String) : Decidable (digestLt d₁ d₂) := by
  unfold digestLt
  infer_instance

/-- Modelled from the spec: the ranking comparator of section 4.1 on two
records, for a fixed ranking context (primaryDigest = targetDigest,
uncompressedDigest = decompressedDigest). Records compare by tier first,
then within a tier by lastSeen descending, then by digest ascending. -/
def candidateLess (primaryDigest uncompressedDigest : String)
    (xi xj : CandidateWithTime) : Bool :=
  decide (tier primaryDigest uncompressedDigest xi.candidate.Digest
            < tier primaryDigest uncompressedDigest xj.candidate.Digest
    ∨ (tier primaryDigest uncompressedDigest xi.candidate.Digest
         = tier primaryDigest uncompressedDigest xj.candidate.Digest
       ∧ (xj.lastSeen < xi.lastSeen
          ∨ (xi.lastSeen = xj.lastSeen ∧ digestLt xi.candidate.Digest xj.candidate.Digest))))

/-- Modelled from the spec: the sort state of the comparator, as exercised by
the unit tests — a candidate slice plus the two context digests. -/
structure candidateSortState where
  cs : List CandidateWithTime
  primaryDigest : String
  uncompressedDigest : String

/-- Modelled from the spec: the Len method of the sort interface. -/
def candidateSortState.Len (css : candidateSortState) : Nat :=
  css.cs.length

/-- Modelled from the spec: the Less method of the sort interface, comparing
the records at indices i and j with the comparator of section 4.1. -/
def candidateSortState.Less (css : candidateSortState) (i j : Nat) : Bool :=
  candidateLess css.primaryDigest css.uncompressedDigest
    (css.cs.getD i defaultCandidate) (css.cs.getD j defaultCandidate)

/-- The non-strict companion of candidateLess: a is at most b when b is not
strictly before a. A sorted run of candidates is orderly with respect to
this relation. -/
def candidateLE (p u : String) (a b : CandidateWithTime) : Prop :=
  candidateLess p u b a = false

instance (p u : String) : DecidableRel (candidateLE p u) := fun a b => by
  unfold candidateLE
  infer_instance

/-- Modelled from the spec: sorting one group with the comparator
(section 4.3, steps 1 and 2). -/
def sortCandidates (p u : String) (l : List CandidateWithTime) : List CandidateWithTime :=
  List.insertionSort (candidateLE p u) l

/-- The sort key of a record under a ranking context: tier, lastSeen, and the
digest's character list. The comparator is the strict lexicographic order on
this key with the middle (recency) component reversed. -/
def key (p u : String) (c : CandidateWithTime) : Nat × Nat × List Char :=
  (tier p u c.candidate.Digest, c.lastSeen, c.candidate.Digest.data)

/-- Strict order on sort keys: tier ascending, then lastSeen descending,
then digest ascending. -/
def KeyLt (k₁ k₂ : Nat × Nat × List Char) : Prop :=
  k₁.1 < k₂.1 ∨ (k₁.1 = k₂.1 ∧ (k₂.2.1 < k₁.2.1 ∨ (k₁.2.1 = k₂.2.1 ∧ k₁.2.2 < k₂.2.2)))

/-- Non-strict order on sort keys. -/
def KeyLE (k₁ k₂ : Nat × Nat × List Char) : Prop :=
  ¬ KeyLt k₂ k₁

/-- Modelled from the spec: the partition-and-truncate engine of sections 4.2
and 4.3. Partition into located and unknown-location groups preserving
relative order; sort each with the comparator; keep the first
min(totalLimit, located-count) located entries and the first
min(noLocationLimit, unknown-count) unknown entries; concatenate located
first; truncate the concatenation to totalLimit; strip the timestamps. -/
def destructivelyPrioritizeReplacementCandidatesWithMax
    (cs : List CandidateWithTime) (primaryDigest uncompressedDigest : String)
    (totalLimit noLocationLimit : Nat) : List BICReplacementCandidate2 :=
  let knownLocationCandidates := cs.filter fun c => !c.candidate.UnknownLocation
  let unknownLocationCandidates := cs.filter fun c => c.candidate.UnknownLocation
  let sortedKnown := sortCandidates primaryDigest uncompressedDigest knownLocationCandidates
  let sortedUnknown := sortCandidates primaryDigest uncompressedDigest unknownLocationCandidates
  let keptKnown := sortedKnown.take (min totalLimit knownLocationCandidates.length)
  let keptUnknown := sortedUnknown.take (min noLocationLimit unknownLocationCandidates.length)
  ((keptKnown ++ keptUnknown).take totalLimit).map fun c => c.candidate

/-- Modelled from the spec: the default overall attempt budget of the public
entry point (section 4.4). -/
def replacementAttempts : Nat := 5

/-- Modelled from the spec: the default unknown-location attempt budget of
the public entry point (section 4.4), strictly smaller than the overall
budget. -/
def replacementUnknownLocationAttempts : Nat := 2

/-- Modelled from the spec: the public entry point (section 4.4) — the engine
with the two default budgets applied. -/
def DestructivelyPrioritizeReplacementCandidates (cs : List CandidateWithTime)
    (primaryDigest uncompressedDigest : String) : List BICReplacementCandidate2 :=
  destructivelyPrioritizeReplacementCandidatesWithMax cs primaryDigest uncompressedDigest
    replacementAttempts replacementUnknownLocationAttempts

/-! Validation of the model against the data of the unit tests shipped with
the repository. Digest constants and the cssLiteral fixture are taken from
the test file; times Unix(s, ns) are encoded as s * 1000000000 + ns and the
zero time as 0. -/

def digestUncompressed : String :=
  "sha256:2222222222222222222222222222222222222222222222222222222222222222"

def digestCompressedA : String :=
  "sha256:3333333333333333333333333333333333333333333333333333333333333333"

def digestCompressedB : String :=
  "sha256:4444444444444444444444444444444444444444444444444444444444444444"

def digestCompressedPrimary : String :=
  "sha256:6666666666666666666666666666666666666666666666666666666666666666"

/-- The shared non-trivial sort state of the unit tests (cssLiteral). -/
def cssLiteral : candidateSortState :=
  { cs := [
      ⟨⟨digestCompressedA, false, "A1", "Xz"⟩, 1000000000⟩,
      ⟨⟨digestUncompressed, false, "U2", "gzip"⟩, 1000000001⟩,
      ⟨⟨digestCompressedA, false, "A2", "uncompressed"⟩, 1000000001⟩,
      ⟨⟨digestCompressedPrimary, false, "P1", "unknown"⟩, 1000000000⟩,
      ⟨⟨digestCompressedB, false, "B1", "bzip2"⟩, 1000000001⟩,
      ⟨⟨digestCompressedPrimary, false, "P2", "gzip"⟩, 1000000001⟩,
      ⟨⟨digestCompressedB, false, "B2", "uncompressed"⟩, 2000000000⟩,
      ⟨⟨digestUncompressed, false, "U1", "unknown"⟩, 1000000000⟩,
      ⟨⟨digestUncompressed, true, "", "unknown"⟩, 0⟩,
      ⟨⟨digestCompressedA, true, "", "unknown"⟩, 0⟩,
      ⟨⟨digestCompressedB, true, "", "unknown"⟩, 0⟩,
      ⟨⟨digestCompressedPrimary, true, "", "unknown"⟩, 0⟩ ],
    primaryDigest := digestCompressedPrimary,
    uncompressedDigest := digestUncompressed }

/-- The fully-sorted, unlimited result of prioritizing cssLiteral, as recorded
in the unit tests (cssExpectedReplacementCandidates). -/
def cssExpectedReplacementCandidates : List BICReplacementCandidate2 := [
  ⟨digestCompressedPrimary, false, "P2", "gzip"⟩,
  ⟨digestCompressedPrimary, false, "P1", "unknown"⟩,
  ⟨digestCompressedB, false, "B2", "uncompressed"⟩,
  ⟨digestCompressedA, false, "A2", "uncompressed"⟩,
  ⟨digestCompressedB, false, "B1", "bzip2"⟩,
  ⟨digestCompressedA, false, "A1", "Xz"⟩,
  ⟨digestUncompressed, false, "U2", "gzip"⟩,
  ⟨digestUncompressed, false, "U1", "unknown"⟩,
  ⟨digestCompressedPrimary, true, "", "unknown"⟩,
  ⟨digestCompressedA, true, "", "unknown"⟩,
  ⟨digestCompressedB, true, "", "unknown"⟩,
  ⟨digestUncompressed, true, "", "unknown"⟩ ]

example : cssLiteral.Len = 12 := by decide

example :
    destructivelyPrioritizeReplacementCandidatesWithMax cssLiteral.cs
      digestCompressedPrimary digestUncompressed 100 100
      = cssExpectedReplacementCandidates := by
  decide

example :
    DestructivelyPrioritizeReplacementCandidates cssLiteral.cs
      digestCompressedPrimary digestUncompressed
      = cssExpectedReplacementCandidates.take replacementAttempts := by
  decide

example :
    destructivelyPrioritizeReplacementCandidatesWithMax cssLiteral.cs
      digestCompressedPrimary digestUncompressed 4 100
      = cssExpectedReplacementCandidates.take 4 := by
  decide

example :
    destructivelyPrioritizeReplacementCandidatesWithMax cssLiteral.cs
      digestCompressedPrimary digestUncompressed 100 2
      = cssExpectedReplacementCandidates.take 10 := by
  decide

example :
    destructivelyPrioritizeReplacementCandidatesWithMax cssLiteral.cs
      digestCompressedPrimary digestUncompressed 0 2
      = [] := by
  decide

/-- Two-record sort state used to replay the comparator cases of the unit
tests: primary digest is digestCompressedPrimary, uncompressed digest is the
parameter u. -/
def testState (d₀ : String) (t₀ : Nat) (d₁ : String) (t₁ : Nat) (u : String) : candidateSortState :=
  { cs := [⟨⟨d₀, false, "L0", "gzip"⟩, t₀⟩, ⟨⟨d₁, false, "L1", "zstd"⟩, t₁⟩],
    primaryDigest := digestCompressedPrimary,
    uncompressedDigest := u }

example :
    ∀ tm ∈ [((1 : Nat), (2 : Nat)), (2, 1), (1, 1)],
      ∀ u ∈ [digestUncompressed, "", digestCompressedPrimary],
        (testState digestCompressedPrimary tm.1 digestCompressedA tm.2 u).Less 0 1 = true ∧
        (testState digestCompressedPrimary tm.1 digestCompressedA tm.2 u).Less 1 0 = false := by
  decide

example :
    ∀ tm ∈ [((1 : Nat), (2 : Nat)), (2, 1), (1, 1)],
      (testState digestCompressedA tm.1 digestUncompressed tm.2 digestUncompressed).Less 0 1 = true ∧
      (testState digestCompressedA tm.1 digestUncompressed tm.2 digestUncompressed).Less 1 0 = false := by
  decide

example :
    ∀ tm ∈ [((1 : Nat), (2 : Nat)), (2, 1), (1, 1)],
      (testState digestCompressedPrimary tm.1 digestUncompressed tm.2 digestUncompressed).Less 0 1 = true ∧
      (testState digestCompressedPrimary tm.1 digestUncompressed tm.2 digestUncompressed).Less 1 0 = false := by
  decide

example :
    ∀ u ∈ [digestUncompressed, "", digestCompressedPrimary],
      ((testState digestCompressedPrimary 2 digestCompressedPrimary 1 u).Less 0 1 = true ∧
        (testState digestCompressedPrimary 2 digestCompressedPrimary 1 u).Less 1 0 = false) ∧
      ((testState digestCompressedPrimary 1 digestCompressedPrimary 1 u).Less 0 1 = false ∧
        (testState digestCompressedPrimary 1 digestCompressedPrimary 1 u).Less 1 0 = false) := by
  decide

example :
    ((testState digestUncompressed 2 digestUncompressed 1 digestUncompressed).Less 0 1 = true ∧
      (testState digestUncompressed 2 digestUncompressed 1 digestUncompressed).Less 1 0 = false) ∧
    ((testState digestUncompressed 1 digestUncompressed 1 digestUncompressed).Less 0 1 = false ∧
      (testState digestUncompressed 1 digestUncompressed 1 digestUncompressed).Less 1 0 = false) := by
  decide

example :
    ∀ u ∈ [digestUncompressed, "", digestCompressedPrimary],
      ((testState digestCompressedA 2 digestCompressedB 1 u).Less 0 1 = true ∧
        (testState digestCompressedA 2 digestCompressedB 1 u).Less 1 0 = false) ∧
      ((testState digestCompressedB 2 digestCompressedA 1 u).Less 0 1 = true ∧
        (testState digestCompressedB 2 digestCompressedA 1 u).Less 1 0 = false) ∧
      ((testState digestCompressedA 1 digestCompressedB 1 u).Less 0 1 = true ∧
        (testState digestCompressedA 1 digestCompressedB 1 u).Less 1 0 = false) ∧
      ((testState digestCompressedA 1 digestCompressedA 1 u).Less 0 1 = false ∧
        (testState digestCompressedA 1 digestCompressedA 1 u).Less 1 0 = false) := by
  decide

/-! Order-theoretic facts about the comparator, via its sort key. -/

theorem candidateLess_eq_true_iff (p u : String) (a b : CandidateWithTime) :
    candidateLess p u a b = true ↔ KeyLt (key p u a) (key p u b) := by
  simp [candidateLess, key, KeyLt, digestLt]

theorem keyLt_irrefl (k : Nat × Nat × List Char) : ¬ KeyLt k k := by
  simp [KeyLt]

theorem keyLt_trans {k₁ k₂ k₃ : Nat × Nat × List Char}
    (h₁ : KeyLt k₁ k₂) (h₂ : KeyLt k₂ k₃) : KeyLt k₁ k₃ := by
  obtain ⟨t₁, s₁, d₁⟩ := k₁
  obtain ⟨t₂, s₂, d₂⟩ := k₂
  obtain ⟨t₃, s₃, d₃⟩ := k₃
  simp only [KeyLt] at h₁ h₂ ⊢
  rcases h₁ with h₁ | ⟨e₁, h₁ | ⟨f₁, g₁⟩⟩ <;> rcases h₂ with h₂ | ⟨e₂, h₂ | ⟨f₂, g₂⟩⟩
  · exact Or.inl (by omega)
  · exact Or.inl (by omega)
  · exact Or.inl (by omega)
  · exact Or.inl (by omega)
  · exact Or.inr ⟨by omega, Or.inl (by omega)⟩
  · exact Or.inr ⟨by omega, Or.inl (by omega)⟩
  · exact Or.inl (by omega)
  · exact Or.inr ⟨by omega, Or.inl (by omega)⟩
  · exact Or.inr ⟨by omega, Or.inr ⟨by omega, g₁.trans g₂⟩⟩

theorem keyLt_asymm {k₁ k₂ : Nat × Nat × List Char} (h : KeyLt k₁ k₂) : ¬ KeyLt k₂ k₁ :=
  fun h' => keyLt_irrefl k₁ (keyLt_trans h h')

theorem keyLt_connex {k₁ k₂ : Nat × Nat × List Char}
    (h₁ : ¬ KeyLt k₁ k₂) (h₂ : ¬ KeyLt k₂ k₁) : k₁ = k₂ := by
  obtain ⟨t₁, s₁, d₁⟩ := k₁
  obtain ⟨t₂, s₂, d₂⟩ := k₂
  simp only [KeyLt, not_or, not_and, not_lt] at h₁ h₂
  have ht : t₁ = t₂ := le_antisymm h₂.1 h₁.1
  subst ht
  have hs : s₁ = s₂ := le_antisymm (h₁.2 rfl).1 (h₂.2 rfl).1
  subst hs
  have hd : d₁ = d₂ := le_antisymm ((h₂.2 rfl).2 rfl) ((h₁.2 rfl).2 rfl)
  subst hd
  rfl

theorem keyLt_trichotomy (k₁ k₂ : Nat × Nat × List Char) :
    KeyLt k₁ k₂ ∨ k₁ = k₂ ∨ KeyLt k₂ k₁ := by
  by_cases h₁ : KeyLt k₁ k₂
  · exact Or.inl h₁
  by_cases h₂ : KeyLt k₂ k₁
  · exact Or.inr (Or.inr h₂)
  · exact Or.inr (Or.inl (keyLt_connex h₁ h₂))

theorem candidateLE_iff (p u : String) (a b : CandidateWithTime) :
    candidateLE p u a b ↔ ¬ KeyLt (key p u b) (key p u a) := by
  rw [candidateLE, ← Bool.not_eq_true, candidateLess_eq_true_iff]

theorem candidateLE_total (p u : String) (a b : CandidateWithTime) :
    candidateLE p u a b ∨ candidateLE p u b a := by
  by_cases h : KeyLt (key p u b) (key p u a)
  · exact Or.inr ((candidateLE_iff p u b a).mpr (keyLt_asymm h))
  · exact Or.inl ((candidateLE_iff p u a b).mpr h)

theorem candidateLE_trans (p u : String) (a b c : CandidateWithTime)
    (h₁ : candidateLE p u a b) (h₂ : candidateLE p u b c) : candidateLE p u a c := by
  rw [candidateLE_iff] at h₁ h₂ ⊢
  intro h
  rcases keyLt_trichotomy (key p u b) (key p u c) with hbc | hbc | hbc
  · exact h₁ (keyLt_trans hbc h)
  · exact h₁ (hbc ▸ h)
  · exact h₂ hbc

theorem sortCandidates_perm (p u : String) (l : List CandidateWithTime) :
    (sortCandidates p u l).Perm l :=
  List.perm_insertionSort _ l

theorem sortCandidates_length (p u : String) (l : List CandidateWithTime) :
    (sortCandidates p u l).length = l.length :=
  (sortCandidates_perm p u l).length_eq

theorem sortCandidates_sorted (p u : String) (l : List CandidateWithTime) :
    List.Sorted (candidateLE p u) (sortCandidates p u l) := by
  haveI : IsTotal CandidateWithTime (candidateLE p u) := ⟨candidateLE_total p u⟩
  haveI : IsTrans CandidateWithTime (candidateLE p u) := ⟨candidateLE_trans p u⟩
  exact List.sorted_insertionSort _ l

theorem candidateLess_eq_true_iff' (p u : String) (a b : CandidateWithTime) :
    candidateLess p u a b = true ↔
      (tier p u a.candidate.Digest < tier p u b.candidate.Digest
        ∨ (tier p u a.candidate.Digest = tier p u b.candidate.Digest
           ∧ (b.lastSeen < a.lastSeen
              ∨ (a.lastSeen = b.lastSeen
                 ∧ a.candidate.Digest.data < b.candidate.Digest.data)))) := by
  simp [candidateLess, digestLt]

theorem less_pair_of_tier_lt (p u : String) {a b : CandidateWithTime}
    (h : tier p u a.candidate.Digest < tier p u b.candidate.Digest) :
    candidateLess p u a b = true ∧ candidateLess p u b a = false := by
  refine ⟨(candidateLess_eq_true_iff' p u a b).mpr (Or.inl h), ?_⟩
  rw [← Bool.not_eq_true, candidateLess_eq_true_iff']
  rintro (h' | ⟨e, -⟩) <;> omega

theorem less_pair_of_time_lt (p u : String) {a b : CandidateWithTime}
    (ht : tier p u a.candidate.Digest = tier p u b.candidate.Digest)
    (h : b.lastSeen < a.lastSeen) :
    candidateLess p u a b = true ∧ candidateLess p u b a = false := by
  refine ⟨(candidateLess_eq_true_iff' p u a b).mpr (Or.inr ⟨ht, Or.inl h⟩), ?_⟩
  rw [← Bool.not_eq_true, candidateLess_eq_true_iff']
  rintro (h' | ⟨e, h' | ⟨f, -⟩⟩) <;> omega

theorem less_pair_of_digest_lt (p u : String) {a b : CandidateWithTime}
    (ht : tier p u a.candidate.Digest = tier p u b.candidate.Digest)
    (hs : a.lastSeen = b.lastSeen)
    (h : a.candidate.Digest.data < b.candidate.Digest.data) :
    candidateLess p u a b = true ∧ candidateLess p u b a = false := by
  refine ⟨(candidateLess_eq_true_iff' p u a b).mpr (Or.inr ⟨ht, Or.inr ⟨hs, h⟩⟩), ?_⟩
  rw [← Bool.not_eq_true, candidateLess_eq_true_iff']
  rintro (h' | ⟨e, h' | ⟨f, g⟩⟩)
  · omega
  · omega
  · exact absurd h (lt_asymm g)

/-- C1: for a fixed ranking context with non-empty target digest, the
comparator candidateSortState.Less orders records by tier regardless of
timestamps: a record whose digest equals the target digest ranks strictly
before every record whose digest does not, and a record whose digest is
neither the target nor the decompressed digest ranks strictly before every
record whose digest equals a non-empty decompressed digest that differs from
the target digest. -/
theorem tier_monotonicity_less (p u : String) (hp : p ≠ "") (a b : CandidateWithTime) :
    (a.candidate.Digest = p → b.candidate.Digest ≠ p →
      (candidateSortState.mk [a, b] p u).Less 0 1 = true
        ∧ (candidateSortState.mk [a, b] p u).Less 1 0 = false)
    ∧ (u ≠ "" → u ≠ p → a.candidate.Digest ≠ p → a.candidate.Digest ≠ u →
        b.candidate.Digest = u →
      (candidateSortState.mk [a, b] p u).Less 0 1 = true
        ∧ (candidateSortState.mk [a, b] p u).Less 1 0 = false) := by
  constructor
  · intro h₁ h₂
    show candidateLess p u a b = true ∧ candidateLess p u b a = false
    refine less_pair_of_tier_lt p u ?_
    have ha : tier p u a.candidate.Digest = 0 := by simp [tier, h₁]
    have hb : 0 < tier p u b.candidate.Digest := by
      unfold tier
      split_ifs with hc hd
      · exact absurd hc h₂
      · omega
      · omega
    omega
  · intro hu hup h₁ h₂ h₃
    show candidateLess p u a b = true ∧ candidateLess p u b a = false
    refine less_pair_of_tier_lt p u ?_
    have ha : tier p u a.candidate.Digest = 1 := by simp [tier, h₁, h₂]
    have hb : tier p u b.candidate.Digest = 2 := by
      have : b.candidate.Digest ≠ p := by rw [h₃]; exact hup
      simp [tier, this, hu, hup, h₃]
    omega

theorem tier_monotonicity_less_witness :
    ("p" : String) ≠ ""
    ∧ ((candidateSortState.mk
          [⟨⟨"p", false, "L0", "gzip"⟩, 1⟩, ⟨⟨"x", false, "L1", "zstd"⟩, 9⟩] "p" "u").Less 0 1 = true
        ∧ (candidateSortState.mk
          [⟨⟨"p", false, "L0", "gzip"⟩, 1⟩, ⟨⟨"x", false, "L1", "zstd"⟩, 9⟩] "p" "u").Less 1 0 = false)
    ∧ ((candidateSortState.mk
          [⟨⟨"x", false, "L0", "gzip"⟩, 1⟩, ⟨⟨"u", false, "L1", "zstd"⟩, 9⟩] "p" "u").Less 0 1 = true
        ∧ (candidateSortState.mk
          [⟨⟨"x", false, "L0", "gzip"⟩, 1⟩, ⟨⟨"u", false, "L1", "zstd"⟩, 9⟩] "p" "u").Less 1 0 = false) :=
  ⟨by decide,
   (tier_monotonicity_less "p" "u" (by decide)
      ⟨⟨"p", false, "L0", "gzip"⟩, 1⟩ ⟨⟨"x", false, "L1", "zstd"⟩, 9⟩).1 (by decide) (by decide),
   (tier_monotonicity_less "p" "u" (by decide)
      ⟨⟨"x", false, "L0", "gzip"⟩, 1⟩ ⟨⟨"u", false, "L1", "zstd"⟩, 9⟩).2
     (by decide) (by decide) (by decide) (by decide) (by decide)⟩

/-- C4: for two same-tier records under a fixed ranking context with
non-empty target digest, if the lastSeen values differ the comparator ranks
the record with the later lastSeen strictly first, and a record with the
zero timestamp (no recency metadata) is treated as the oldest: any same-tier
record with a non-zero timestamp ranks strictly before it. -/
theorem recency_within_tier (p u : String) (hp : p ≠ "") (a b : CandidateWithTime)
    (ht : tier p u a.candidate.Digest = tier p u b.candidate.Digest) :
    (b.lastSeen < a.lastSeen →
      (candidateSortState.mk [a, b] p u).Less 0 1 = true
        ∧ (candidateSortState.mk [a, b] p u).Less 1 0 = false)
    ∧ (b.lastSeen = 0 → a.lastSeen ≠ 0 →
      (candidateSortState.mk [a, b] p u).Less 0 1 = true
        ∧ (candidateSortState.mk [a, b] p u).Less 1 0 = false) := by
  constructor
  · intro h
    show candidateLess p u a b = true ∧ candidateLess p u b a = false
    exact less_pair_of_time_lt p u ht h
  · intro hb ha
    show candidateLess p u a b = true ∧ candidateLess p u b a = false
    exact less_pair_of_time_lt p u ht (by omega)

theorem recency_within_tier_witness :
    ("p" : String) ≠ ""
    ∧ tier "p" "u" "x" = tier "p" "u" "y"
    ∧ ((candidateSortState.mk
          [⟨⟨"x", false, "L0", "gzip"⟩, 7⟩, ⟨⟨"y", false, "L1", "zstd"⟩, 3⟩] "p" "u").Less 0 1 = true
        ∧ (candidateSortState.mk
          [⟨⟨"x", false, "L0", "gzip"⟩, 7⟩, ⟨⟨"y", false, "L1", "zstd"⟩, 3⟩] "p" "u").Less 1 0 = false)
    ∧ ((candidateSortState.mk
          [⟨⟨"x", false, "L0", "gzip"⟩, 7⟩, ⟨⟨"y", false, "L1", "zstd"⟩, 0⟩] "p" "u").Less 0 1 = true
        ∧ (candidateSortState.mk
          [⟨⟨"x", false, "L0", "gzip"⟩, 7⟩, ⟨⟨"y", false, "L1", "zstd"⟩, 0⟩] "p" "u").Less 1 0 = false) :=
  ⟨by decide, by decide,
   (recency_within_tier "p" "u" (by decide)
      ⟨⟨"x", false, "L0", "gzip"⟩, 7⟩ ⟨⟨"y", false, "L1", "zstd"⟩, 3⟩ (by decide)).1 (by decide),
   (recency_within_tier "p" "u" (by decide)
      ⟨⟨"x", false, "L0", "gzip"⟩, 7⟩ ⟨⟨"y", false, "L1", "zstd"⟩, 0⟩ (by decide)).2
     (by decide) (by decide)⟩

/-- C5: for two same-tier records with identical lastSeen and the first
digest lexicographically smaller than the second, the comparator ranks the
first strictly before the second; this holds in every tier and for every
decompressed digest, including the empty one and one equal to the target
digest. -/
theorem deterministic_tie_break (p u : String) (hp : p ≠ "") (a b : CandidateWithTime)
    (ht : tier p u a.candidate.Digest = tier p u b.candidate.Digest)
    (hs : a.lastSeen = b.lastSeen)
    (hd : digestLt a.candidate.Digest b.candidate.Digest) :
    (candidateSortState.mk [a, b] p u).Less 0 1 = true
      ∧ (candidateSortState.mk [a, b] p u).Less 1 0 = false :=
  less_pair_of_digest_lt p u ht hs hd

theorem deterministic_tie_break_witness :
    (("p" : String) ≠ "" ∧ tier "p" "" "aaa" = tier "p" "" "bbb"
      ∧ (7 : Nat) = 7 ∧ digestLt "aaa" "bbb")
    ∧ ((candidateSortState.mk
          [⟨⟨"aaa", false, "L0", "gzip"⟩, 7⟩, ⟨⟨"bbb", false, "L1", "zstd"⟩, 7⟩] "p" "").Less 0 1 = true
        ∧ (candidateSortState.mk
          [⟨⟨"aaa", false, "L0", "gzip"⟩, 7⟩, ⟨⟨"bbb", false, "L1", "zstd"⟩, 7⟩] "p" "").Less 1 0 = false) :=
  ⟨⟨by decide, by decide, rfl, by decide⟩,
   deterministic_tie_break "p" "" (by decide)
     ⟨⟨"aaa", false, "L0", "gzip"⟩, 7⟩ ⟨⟨"bbb", false, "L1", "zstd"⟩, 7⟩
     (by decide) rfl (by decide)⟩

/-- C6: for every ranking context with non-empty target digest, the
comparator candidateSortState.Less is a strict weak ordering over candidate
records: irreflexive, asymmetric, transitive, and with transitive
incomparability. -/
theorem less_strict_weak_order (p u : String) (hp : p ≠ "") (a b c : CandidateWithTime) :
    ((candidateSortState.mk [a, b, c] p u).Less 0 0 = false)
    ∧ ((candidateSortState.mk [a, b, c] p u).Less 0 1 = true →
        (candidateSortState.mk [a, b, c] p u).Less 1 0 = false)
    ∧ ((candidateSortState.mk [a, b, c] p u).Less 0 1 = true →
        (candidateSortState.mk [a, b, c] p u).Less 1 2 = true →
        (candidateSortState.mk [a, b, c] p u).Less 0 2 = true)
    ∧ ((candidateSortState.mk [a, b, c] p u).Less 0 1 = false →
        (candidateSortState.mk [a, b, c] p u).Less 1 0 = false →
        (candidateSortState.mk [a, b, c] p u).Less 1 2 = false →
        (candidateSortState.mk [a, b, c] p u).Less 2 1 = false →
        (candidateSortState.mk [a, b, c] p u).Less 0 2 = false
          ∧ (candidateSortState.mk [a, b, c] p u).Less 2 0 = false) := by
  have nk : ∀ x y : CandidateWithTime, candidateLess p u x y = false →
      ¬ KeyLt (key p u x) (key p u y) := by
    intro x y hxy h
    have := (candidateLess_eq_true_iff p u x y).mpr h
    rw [hxy] at this
    exact Bool.noConfusion this
  refine ⟨?_, ?_, ?_, ?_⟩
  · show candidateLess p u a a = false
    rw [← Bool.not_eq_true, candidateLess_eq_true_iff]
    exact keyLt_irrefl _
  · show candidateLess p u a b = true → candidateLess p u b a = false
    intro h
    rw [← Bool.not_eq_true, candidateLess_eq_true_iff]
    exact keyLt_asymm ((candidateLess_eq_true_iff p u a b).mp h)
  · show candidateLess p u a b = true → candidateLess p u b c = true →
        candidateLess p u a c = true
    intro h₁ h₂
    exact (candidateLess_eq_true_iff p u a c).mpr
      (keyLt_trans ((candidateLess_eq_true_iff p u a b).mp h₁)
        ((candidateLess_eq_true_iff p u b c).mp h₂))
  · show candidateLess p u a b = false → candidateLess p u b a = false →
        candidateLess p u b c = false → candidateLess p u c b = false →
        candidateLess p u a c = false ∧ candidateLess p u c a = false
    intro h₁ h₂ h₃ h₄
    have e₁ : key p u a = key p u b := keyLt_connex (nk a b h₁) (nk b a h₂)
    have e₂ : key p u b = key p u c := keyLt_connex (nk b c h₃) (nk c b h₄)
    constructor
    · rw [← Bool.not_eq_true, candidateLess_eq_true_iff, e₁, e₂]
      exact keyLt_irrefl _
    · rw [← Bool.not_eq_true, candidateLess_eq_true_iff, e₁, e₂]
      exact keyLt_irrefl _

theorem less_strict_weak_order_witness :
    ("p" : String) ≠ ""
    ∧ ((candidateSortState.mk
          [⟨⟨"p", false, "L0", "gzip"⟩, 1⟩, ⟨⟨"x", false, "L1", "zstd"⟩, 2⟩,
            ⟨⟨"u", false, "L2", "Xz"⟩, 3⟩] "p" "u").Less 0 0 = false)
    ∧ ((candidateSortState.mk
          [⟨⟨"p", false, "L0", "gzip"⟩, 1⟩, ⟨⟨"x", false, "L1", "zstd"⟩, 2⟩,
            ⟨⟨"u", false, "L2", "Xz"⟩, 3⟩] "p" "u").Less 0 2 = true) :=
  ⟨by decide,
   (less_strict_weak_order "p" "u" (by decide)
      ⟨⟨"p", false, "L0", "gzip"⟩, 1⟩ ⟨⟨"x", false, "L1", "zstd"⟩, 2⟩
      ⟨⟨"u", false, "L2", "Xz"⟩, 3⟩).1,
   (less_strict_weak_order "p" "u" (by decide)
      ⟨⟨"p", false, "L0", "gzip"⟩, 1⟩ ⟨⟨"x", false, "L1", "zstd"⟩, 2⟩
      ⟨⟨"u", false, "L2", "Xz"⟩, 3⟩).2.2.1 (by decide) (by decide)⟩

/-! Length and membership facts about the partition-and-truncate engine. -/

theorem length_withMax (cs : List CandidateWithTime) (p u : String) (tl ul : Nat) :
    (destructivelyPrioritizeReplacementCandidatesWithMax cs p u tl ul).length
      = min (min tl (cs.filter fun c => !c.candidate.UnknownLocation).length
          + min ul (cs.filter fun c => c.candidate.UnknownLocation).length) tl := by
  simp only [destructivelyPrioritizeReplacementCandidatesWithMax, List.length_map,
    List.length_take, List.length_append, sortCandidates_length]
  omega

/-- C2: for every candidate sequence with L located and U unknown-location
records and all budgets, the engine output has length exactly
min(min(totalLimit, L) + min(unknownLimit, U), totalLimit). -/
theorem budget_arithmetic_length (cs : List CandidateWithTime) (p u : String)
    (totalLimit noLocationLimit : Nat) :
    (destructivelyPrioritizeReplacementCandidatesWithMax cs p u totalLimit noLocationLimit).length
      = min (min totalLimit (cs.filter fun c => !c.candidate.UnknownLocation).length
          + min noLocationLimit (cs.filter fun c => c.candidate.UnknownLocation).length)
          totalLimit :=
  length_withMax cs p u totalLimit noLocationLimit

/-- C7: the engine is total — for every finite candidate sequence, every
context with non-empty target digest, and all budgets, it returns a
(possibly empty) list of length at most totalLimit. -/
theorem total_length_le (cs : List CandidateWithTime) (p u : String) (hp : p ≠ "")
    (totalLimit noLocationLimit : Nat) :
    (destructivelyPrioritizeReplacementCandidatesWithMax cs p u totalLimit noLocationLimit).length
      ≤ totalLimit := by
  rw [length_withMax]
  omega

theorem total_length_le_witness :
    ("p" : String) ≠ ""
    ∧ (destructivelyPrioritizeReplacementCandidatesWithMax
        [⟨⟨"p", false, "L0", "gzip"⟩, 1⟩, ⟨⟨"x", false, "L1", "zstd"⟩, 2⟩,
          ⟨⟨"y", true, "", "zstd"⟩, 3⟩] "p" "u" 2 1).length ≤ 2 :=
  ⟨by decide,
   total_length_le
     [⟨⟨"p", false, "L0", "gzip"⟩, 1⟩, ⟨⟨"x", false, "L1", "zstd"⟩, 2⟩,
       ⟨⟨"y", true, "", "zstd"⟩, 3⟩] "p" "u" (by decide) 2 1⟩

/-- C9: the public entry point equals the engine applied with the two
default budget constants, and the default unknown-location budget is
strictly smaller than the default overall budget. -/
theorem public_entry_point_spec (cs : List CandidateWithTime) (p u : String) :
    DestructivelyPrioritizeReplacementCandidates cs p u
      = destructivelyPrioritizeReplacementCandidatesWithMax cs p u
          replacementAttempts replacementUnknownLocationAttempts
    ∧ replacementUnknownLocationAttempts < replacementAttempts :=
  ⟨rfl, by decide⟩

theorem mem_sort_filter_not_flag (cs : List CandidateWithTime) (p u : String)
    {x : CandidateWithTime}
    (hx : x ∈ sortCandidates p u (cs.filter fun c => !c.candidate.UnknownLocation)) :
    x.candidate.UnknownLocation = false := by
  have hmem := (sortCandidates_perm p u _).mem_iff.mp hx
  have := (List.mem_filter.mp hmem).2
  simpa using this

theorem mem_sort_filter_flag (cs : List CandidateWithTime) (p u : String)
    {x : CandidateWithTime}
    (hx : x ∈ sortCandidates p u (cs.filter fun c => c.candidate.UnknownLocation)) :
    x.candidate.UnknownLocation = true := by
  have hmem := (sortCandidates_perm p u _).mem_iff.mp hx
  exact (List.mem_filter.mp hmem).2

theorem withMax_decomp (cs : List CandidateWithTime) (p u : String) (tl ul : Nat) :
    ∃ l₁ l₂ : List BICReplacementCandidate2,
      destructivelyPrioritizeReplacementCandidatesWithMax cs p u tl ul = l₁ ++ l₂
        ∧ (∀ x ∈ l₁, x.UnknownLocation = false)
        ∧ (∀ x ∈ l₂, x.UnknownLocation = true) := by
  refine
    ⟨((((sortCandidates p u (cs.filter fun c => !c.candidate.UnknownLocation)).take
          (min tl (cs.filter fun c => !c.candidate.UnknownLocation).length)).take tl).map
        (fun c => c.candidate)),
      ((((sortCandidates p u (cs.filter fun c => c.candidate.UnknownLocation)).take
          (min ul (cs.filter fun c => c.candidate.UnknownLocation).length)).take
        (tl - ((sortCandidates p u (cs.filter fun c => !c.candidate.UnknownLocation)).take
          (min tl (cs.filter fun c => !c.candidate.UnknownLocation).length)).length)).map
        (fun c => c.candidate)),
      ?_, ?_, ?_⟩
  · simp only [destructivelyPrioritizeReplacementCandidatesWithMax]
    rw [List.take_append_eq_append_take, List.map_append]
  · intro x hx
    obtain ⟨y, hy, rfl⟩ := List.mem_map.mp hx
    exact mem_sort_filter_not_flag cs p u
      (List.take_subset _ _ (List.take_subset _ _ hy))
  · intro x hx
    obtain ⟨y, hy, rfl⟩ := List.mem_map.mp hx
    exact mem_sort_filter_flag cs p u
      (List.take_subset _ _ (List.take_subset _ _ hy))

theorem getD_append_flag_order {l₁ l₂ : List BICReplacementCandidate2} {i j : Nat}
    (h₁ : ∀ x ∈ l₁, x.UnknownLocation = false)
    (h₂ : ∀ x ∈ l₂, x.UnknownLocation = true)
    (hi : i < (l₁ ++ l₂).length) (hj : j < (l₁ ++ l₂).length)
    (hiU : ((l₁ ++ l₂).getD i defaultCandidate.candidate).UnknownLocation = true)
    (hjL : ((l₁ ++ l₂).getD j defaultCandidate.candidate).UnknownLocation = false) :
    j < i := by
  rw [List.getD_eq_getElem?_getD, List.getElem?_eq_getElem hi, Option.getD_some] at hiU
  rw [List.getD_eq_getElem?_getD, List.getElem?_eq_getElem hj, Option.getD_some] at hjL
  have hi1 : l₁.length ≤ i := by
    by_contra hlt
    push_neg at hlt
    rw [List.getElem_append_left hlt] at hiU
    rw [h₁ _ (List.getElem_mem hlt)] at hiU
    exact Bool.noConfusion hiU
  have hj1 : j < l₁.length := by
    by_contra hge
    push_neg at hge
    rw [List.getElem_append_right hge] at hjL
    have hj2 : j - l₁.length < l₂.length := by
      have := hj
      rw [List.length_append] at this
      omega
    rw [h₂ _ (List.getElem_mem hj2)] at hjL
    exact Bool.noConfusion hjL
  omega

/-- C3: in every output of the engine, every kept located record (with
UnknownLocation false) occurs strictly before every kept unknown-location
record (with UnknownLocation true), regardless of tiers and timestamps. -/
theorem locality_precedence (cs : List CandidateWithTime) (p u : String) (tl ul : Nat)
    (i j : Nat)
    (hi : i < (destructivelyPrioritizeReplacementCandidatesWithMax cs p u tl ul).length)
    (hj : j < (destructivelyPrioritizeReplacementCandidatesWithMax cs p u tl ul).length)
    (hiU : ((destructivelyPrioritizeReplacementCandidatesWithMax cs p u tl ul).getD i
        defaultCandidate.candidate).UnknownLocation = true)
    (hjL : ((destructivelyPrioritizeReplacementCandidatesWithMax cs p u tl ul).getD j
        defaultCandidate.candidate).UnknownLocation = false) :
    j < i := by
  obtain ⟨l₁, l₂, heq, h₁, h₂⟩ := withMax_decomp cs p u tl ul
  rw [heq] at hi hj hiU hjL
  exact getD_append_flag_order h₁ h₂ hi hj hiU hjL

theorem locality_precedence_witness :
    (1 : Nat) < (destructivelyPrioritizeReplacementCandidatesWithMax
        [⟨⟨"y", true, "", "zstd"⟩, 9⟩, ⟨⟨"x", false, "L1", "gzip"⟩, 1⟩] "p" "u" 2 2).length
    ∧ 0 < (destructivelyPrioritizeReplacementCandidatesWithMax
        [⟨⟨"y", true, "", "zstd"⟩, 9⟩, ⟨⟨"x", false, "L1", "gzip"⟩, 1⟩] "p" "u" 2 2).length
    ∧ ((destructivelyPrioritizeReplacementCandidatesWithMax
        [⟨⟨"y", true, "", "zstd"⟩, 9⟩, ⟨⟨"x", false, "L1", "gzip"⟩, 1⟩] "p" "u" 2 2).getD 1
        defaultCandidate.candidate).UnknownLocation = true
    ∧ ((destructivelyPrioritizeReplacementCandidatesWithMax
        [⟨⟨"y", true, "", "zstd"⟩, 9⟩, ⟨⟨"x", false, "L1", "gzip"⟩, 1⟩] "p" "u" 2 2).getD 0
        defaultCandidate.candidate).UnknownLocation = false
    ∧ (0 : Nat) < 1 :=
  ⟨by decide, by decide, by decide, by decide,
   locality_precedence
     [⟨⟨"y", true, "", "zstd"⟩, 9⟩, ⟨⟨"x", false, "L1", "gzip"⟩, 1⟩] "p" "u" 2 2 1 0
     (by decide) (by decide) (by decide) (by decide)⟩

/-- C10: every output element is one of the input records with only the
lastSeen timestamp dropped, and the output as a whole is a duplication-free
selection of the input records: it is a sub-permutation of the input mapped
to its candidate part. -/
theorem output_subperm_of_input (cs : List CandidateWithTime) (p u : String) (tl ul : Nat) :
    (destructivelyPrioritizeReplacementCandidatesWithMax cs p u tl ul).Subperm
      (cs.map fun c => c.candidate) := by
  simp only [destructivelyPrioritizeReplacementCandidatesWithMax]
  have hsub :
      ((((sortCandidates p u (cs.filter fun c => !c.candidate.UnknownLocation)).take
          (min tl (cs.filter fun c => !c.candidate.UnknownLocation).length))
        ++ ((sortCandidates p u (cs.filter fun c => c.candidate.UnknownLocation)).take
          (min ul (cs.filter fun c => c.candidate.UnknownLocation).length))).take tl).Sublist
        ((sortCandidates p u (cs.filter fun c => !c.candidate.UnknownLocation))
          ++ (sortCandidates p u (cs.filter fun c => c.candidate.UnknownLocation))) :=
    (List.take_sublist _ _).trans
      (List.Sublist.append (List.take_sublist _ _) (List.take_sublist _ _))
  have hperm :
      ((sortCandidates p u (cs.filter fun c => !c.candidate.UnknownLocation))
        ++ (sortCandidates p u (cs.filter fun c => c.candidate.UnknownLocation))).Perm cs := by
    refine ((sortCandidates_perm p u _).append (sortCandidates_perm p u _)).trans ?_
    have hfun : (fun x : CandidateWithTime => !(!x.candidate.UnknownLocation))
        = fun x : CandidateWithTime => x.candidate.UnknownLocation := by
      funext x
      exact Bool.not_not _
    have := List.filter_append_perm (fun c : CandidateWithTime => !c.candidate.UnknownLocation) cs
    rwa [hfun] at this
  exact ((hsub.map fun c => c.candidate).subperm).trans (hperm.map fun c => c.candidate).subperm

/-! Invariance of the selection under permutation of the input. -/

theorem sorted_map_key (p u : String) (l : List CandidateWithTime) :
    List.Sorted KeyLE ((sortCandidates p u l).map (key p u)) := by
  have hs := sortCandidates_sorted p u l
  rw [List.Sorted, List.pairwise_map]
  exact hs.imp fun hab => (candidateLE_iff p u _ _).mp hab

theorem map_key_sortCandidates_eq (p u : String) {l₁ l₂ : List CandidateWithTime}
    (h : l₁.Perm l₂) :
    (sortCandidates p u l₁).map (key p u) = (sortCandidates p u l₂).map (key p u) := by
  haveI : IsAntisymm (Nat × Nat × List Char) KeyLE :=
    ⟨fun k₁ k₂ h₁ h₂ => keyLt_connex h₂ h₁⟩
  have hperm : ((sortCandidates p u l₁).map (key p u)).Perm
      ((sortCandidates p u l₂).map (key p u)) :=
    ((sortCandidates_perm p u l₁).trans (h.trans (sortCandidates_perm p u l₂).symm)).map _
  exact List.eq_of_perm_of_sorted hperm (sorted_map_key p u l₁) (sorted_map_key p u l₂)

theorem map_digest_sortCandidates_eq (p u : String) {l₁ l₂ : List CandidateWithTime}
    (h : l₁.Perm l₂) :
    (sortCandidates p u l₁).map (fun c => c.candidate.Digest)
      = (sortCandidates p u l₂).map (fun c => c.candidate.Digest) := by
  have hk := map_key_sortCandidates_eq p u h
  have e : ∀ s : List CandidateWithTime,
      s.map (fun c => c.candidate.Digest)
        = (s.map (key p u)).map (fun k => String.mk k.2.2) := by
    intro s
    rw [List.map_map]
    rfl
  rw [e, e, hk]

theorem map_flag_withMax (cs : List CandidateWithTime) (p u : String) (tl ul : Nat) :
    (destructivelyPrioritizeReplacementCandidatesWithMax cs p u tl ul).map
        (fun r => r.UnknownLocation)
      = List.replicate
          (min tl (min tl (cs.filter fun c => !c.candidate.UnknownLocation).length))
          false
        ++ List.replicate
            (min (tl - min (min tl (cs.filter fun c => !c.candidate.UnknownLocation).length)
                (cs.filter fun c => !c.candidate.UnknownLocation).length)
              (min (min ul (cs.filter fun c => c.candidate.UnknownLocation).length)
                (cs.filter fun c => c.candidate.UnknownLocation).length))
            true := by
  simp only [destructivelyPrioritizeReplacementCandidatesWithMax, List.map_map,
    List.take_append_eq_append_take, List.map_append, List.length_take, sortCandidates_length]
  congr 1
  · rw [List.eq_replicate_iff]
    refine ⟨?_, ?_⟩
    · simp [List.length_take, sortCandidates_length]
    · intro b hb
      obtain ⟨y, hy, rfl⟩ := List.mem_map.mp hb
      exact mem_sort_filter_not_flag cs p u
        (List.take_subset _ _ (List.take_subset _ _ hy))
  · rw [List.eq_replicate_iff]
    refine ⟨?_, ?_⟩
    · simp [List.length_take, sortCandidates_length]
    · intro b hb
      obtain ⟨y, hy, rfl⟩ := List.mem_map.mp hb
      exact mem_sort_filter_flag cs p u
        (List.take_subset _ _ (List.take_subset _ _ hy))

/-- C8 counterexample: permuting the input can change the set of selected
records. Two located records tie under the comparator (same digest, same
lastSeen) but differ in location; with totalLimit 1 the kept record is
whichever came first, so the two input orders select different sets. -/
theorem reorder_changes_selected_records :
    (([⟨⟨"d", false, "L1", "gzip"⟩, 1⟩, ⟨⟨"d", false, "L2", "gzip"⟩, 1⟩] :
        List CandidateWithTime).Perm
      [⟨⟨"d", false, "L2", "gzip"⟩, 1⟩, ⟨⟨"d", false, "L1", "gzip"⟩, 1⟩])
    ∧ (⟨"d", false, "L1", "gzip"⟩ : BICReplacementCandidate2)
        ∈ destructivelyPrioritizeReplacementCandidatesWithMax
            [⟨⟨"d", false, "L1", "gzip"⟩, 1⟩, ⟨⟨"d", false, "L2", "gzip"⟩, 1⟩] "p" "" 1 0
    ∧ (⟨"d", false, "L1", "gzip"⟩ : BICReplacementCandidate2)
        ∉ destructivelyPrioritizeReplacementCandidatesWithMax
            [⟨⟨"d", false, "L2", "gzip"⟩, 1⟩, ⟨⟨"d", false, "L1", "gzip"⟩, 1⟩] "p" "" 1 0 := by
  decide

/-- C8 amended: reordering the input never changes the sequence of digests
of the selected records, nor the sequence of their unknown-location flags
(hence neither the number of selected records nor the multiset of selected
digests); only which individual record represents a group of exact
comparator ties — records agreeing on tier, lastSeen and digest — may
change, as the counterexample shows it can. -/
theorem reorder_preserves_selected_digests (cs₁ cs₂ : List CandidateWithTime)
    (p u : String) (tl ul : Nat) (hperm : cs₁.Perm cs₂) :
    (destructivelyPrioritizeReplacementCandidatesWithMax cs₁ p u tl ul).map
        (fun r => r.Digest)
      = (destructivelyPrioritizeReplacementCandidatesWithMax cs₂ p u tl ul).map
        (fun r => r.Digest)
    ∧ (destructivelyPrioritizeReplacementCandidatesWithMax cs₁ p u tl ul).map
        (fun r => r.UnknownLocation)
      = (destructivelyPrioritizeReplacementCandidatesWithMax cs₂ p u tl ul).map
        (fun r => r.UnknownLocation) := by
  have hpk := hperm.filter (fun c => !c.candidate.UnknownLocation)
  have hpu := hperm.filter (fun c => c.candidate.UnknownLocation)
  have hL := hpk.length_eq
  have hU := hpu.length_eq
  constructor
  · have hD := map_digest_sortCandidates_eq p u hpk
    have hE := map_digest_sortCandidates_eq p u hpu
    simp only [destructivelyPrioritizeReplacementCandidatesWithMax, List.map_map,
      Function.comp_def, List.take_append_eq_append_take, List.map_append, List.map_take,
      List.length_take, sortCandidates_length]
    rw [hD, hE, hL, hU]
  · rw [map_flag_withMax, map_flag_withMax, hL, hU]

theorem reorder_preserves_selected_digests_witness :
    (([⟨⟨"d", false, "L1", "gzip"⟩, 1⟩, ⟨⟨"e", true, "", "zstd"⟩, 2⟩] :
        List CandidateWithTime).Perm
      [⟨⟨"e", true, "", "zstd"⟩, 2⟩, ⟨⟨"d", false, "L1", "gzip"⟩, 1⟩])
    ∧ ((destructivelyPrioritizeReplacementCandidatesWithMax
          [⟨⟨"d", false, "L1", "gzip"⟩, 1⟩, ⟨⟨"e", true, "", "zstd"⟩, 2⟩] "p" "u" 2 1).map
        (fun r => r.Digest)
      = (destructivelyPrioritizeReplacementCandidatesWithMax
          [⟨⟨"e", true, "", "zstd"⟩, 2⟩, ⟨⟨"d", false, "L1", "gzip"⟩, 1⟩] "p" "u" 2 1).map
        (fun r => r.Digest))
    ∧ ((destructivelyPrioritizeReplacementCandidatesWithMax
          [⟨⟨"d", false, "L1", "gzip"⟩, 1⟩, ⟨⟨"e", true, "", "zstd"⟩, 2⟩] "p" "u" 2 1).map
        (fun r => r.UnknownLocation)
      = (destructivelyPrioritizeReplacementCandidatesWithMax
          [⟨⟨"e", true, "", "zstd"⟩, 2⟩, ⟨⟨"d", false, "L1", "gzip"⟩, 1⟩] "p" "u" 2 1).map
        (fun r => r.UnknownLocation)) :=
  ⟨by decide,
   (reorder_preserves_selected_digests
      [⟨⟨"d", false, "L1", "gzip"⟩, 1⟩, ⟨⟨"e", true, "", "zstd"⟩, 2⟩]
      [⟨⟨"e", true, "", "zstd"⟩, 2⟩, ⟨⟨"d", false, "L1", "gzip"⟩, 1⟩]
      "p" "u" 2 1 (by decide)).1,
   (reorder_preserves_selected_digests
      [⟨⟨"d", false, "L1", "gzip"⟩, 1⟩, ⟨⟨"e", true, "", "zstd"⟩, 2⟩]
      [⟨⟨"e", true, "", "zstd"⟩, 2⟩, ⟨⟨"d", false, "L1", "gzip"⟩, 1⟩]
      "p" "u" 2 1 (by decide)).2⟩

end Prioritize
